import Mathlib

/-!
# Verification of `jupyter_cms/fetches.py`

Shallow embedding of the resource-fetch pipeline in
`src/jupyter_cms/fetches.py` (URL dispatch and normalization, response
validation, streaming download), running under Python 2.7 with the
`requests` library.

Modelling conventions:

* Python unicode strings are modelled as `List Char` (`PyStr`).
  `str.split(sep)`, `sep.join(...)`, `str.startswith`, `str.lower`,
  `int(...)` and `urlparse.urlparse` are re-implemented below following
  Python 2.7 semantics.
* A raised `tornado.web.HTTPError(status, msg)` and the `IndexError`
  that Python list indexing can raise are modelled by `Except PyErr`.
* Bytes of the HTTP body are modelled as characters; a `requests`
  response is the record `HttpResponse` of the fields the module reads.
* Filesystem effects of `process_response` are made explicit: the
  outcome records the list of temporary files created in the
  destination directory during the call.
-/

/-- Characters of a Python string. -/
abbrev PyStr := List Char

/-- Character list of a Lean string literal (used to write `PyStr` values). -/
def pstr (s : String) : PyStr := s.data

/-! ## Python string primitives -/

/-- Python `sep in s` for a one-character separator. -/
def hasChar (x : Char) : PyStr → Bool
  | [] => false
  | c :: rest => if c = x then true else hasChar x rest

/-- Python `s.split(sep)` for a one-character separator: keeps empty
pieces, and `''.split(sep) == ['']`. -/
def splitOnChar (sep : Char) : PyStr → List PyStr
  | [] => [[]]
  | c :: rest =>
    if c = sep then [] :: splitOnChar sep rest
    else
      match splitOnChar sep rest with
      | [] => [[c]]
      | h :: t => (c :: h) :: t

/-- Python `sep.join(pieces)` for a one-character separator. -/
def joinChar (sep : Char) : List PyStr → PyStr
  | [] => []
  | [x] => x
  | x :: xs => x ++ sep :: joinChar sep xs

/-- Python `s.split(sep, 1)` for a one-character separator, on a string
that contains the separator: the pair (before, after) of the first
occurrence. -/
def splitFirst (sep : Char) : PyStr → PyStr × PyStr
  | [] => ([], [])
  | c :: rest =>
    if c = sep then ([], rest)
    else
      let p := splitFirst sep rest
      (c :: p.fst, p.snd)

/-- Python `s.lower()`. -/
def lowerP (s : PyStr) : PyStr := s.map Char.toLower

/-! ## `urlparse.urlparse` (Python 2.7)

`urlparse.urlparse(url)` with the default `allow_fragments=True` is
`urlsplit` followed by the params split.  `urlsplit`: find the first
`:`; if the text before it is a valid scheme, split it off
(lower-cased); if the remainder starts with `//`, the netloc runs up
to the first `/`, `?` or `#`, and a netloc containing an unmatched
`[` or `]` raises `ValueError("Invalid IPv6 URL")`; the fragment is
everything after the first `#` of the remainder, then the query is
everything after the first `?`; the rest is the path.  `urlparse`
then, for schemes in `uses_params`, splits `;params` off the last
path segment. -/

/-- Index of the first occurrence of a character (Python `s.find(x)`,
`none` when absent). -/
def idxOfChar (x : Char) : PyStr → Option Nat
  | [] => none
  | c :: rest => if c = x then some 0 else (idxOfChar x rest).map (· + 1)

/-- Index of the last occurrence of a character (Python `s.rfind(x)`,
`none` when absent). -/
def rIdxOfChar (x : Char) : PyStr → Option Nat
  | [] => none
  | c :: rest =>
    match rIdxOfChar x rest with
    | some j => some (j + 1)
    | none => if c = x then some 0 else none

/-- Characters allowed in a URL scheme (Python `urlparse.scheme_chars`). -/
def schemeChar (c : Char) : Bool :=
  c.isAlpha || c.isDigit || c = '+' || c = '-' || c = '.'

/-- Python `urlparse._splitnetloc(url, 0)`: the netloc runs up to the
first `/`, `?` or `#`; the delimiter stays in the remainder. -/
def splitNetloc : PyStr → PyStr × PyStr
  | [] => ([], [])
  | c :: rest =>
    if c = '/' ∨ c = '?' ∨ c = '#' then ([], c :: rest)
    else
      let p := splitNetloc rest
      (c :: p.fst, p.snd)

/-- The components of a parsed URL (`urlparse.SplitResult`). -/
structure UrlParts where
  scheme : PyStr
  netloc : PyStr
  path : PyStr
  query : PyStr
  fragment : PyStr
deriving DecidableEq

/-- A raised Python exception: `tornado.web.HTTPError(status, message)`,
the `IndexError` of an out-of-bounds list index, or the `ValueError`
that `urlparse` raises on a netloc with an unmatched bracket. -/
inductive PyErr where
  | httpError (status : Nat) (message : PyStr)
  | indexError
  | valueError (message : PyStr)
deriving DecidableEq

/-- `if url[:2] == '//': netloc, url = _splitnetloc(url, 2)`:
the pair (netloc, remainder). -/
def netlocPhase (u0 : PyStr) : PyStr × PyStr :=
  if u0.take 2 = ['/', '/'] then splitNetloc (u0.drop 2) else ([], u0)

/-- `if '#' in url: url, fragment = url.split('#', 1)`:
the pair (remainder, fragment). -/
def fragPhase (u1 : PyStr) : PyStr × PyStr :=
  if hasChar '#' u1 then splitFirst '#' u1 else (u1, [])

/-- `if '?' in url: url, query = url.split('?', 1)`:
the pair (path, query). -/
def queryPhase (u2 : PyStr) : PyStr × PyStr :=
  if hasChar '?' u2 then splitFirst '?' u2 else (u2, [])

/-- The check `urlsplit` performs on a freshly split netloc:
`('[' in netloc and ']' not in netloc) or (']' in netloc and '['
not in netloc)` raises `ValueError("Invalid IPv6 URL")`.  (The source
runs it only when the URL starts with `//`; otherwise the netloc is
empty and the check trivially passes, so checking the computed netloc
unconditionally is equivalent.) -/
def badNetlocBrackets (netloc : PyStr) : Bool :=
  (hasChar '[' netloc && !hasChar ']' netloc) ||
  (hasChar ']' netloc && !hasChar '[' netloc)

/-- The netloc/fragment/query/path phase of `urlsplit`, after the
scheme (possibly empty) has been split off; raises `ValueError` on a
netloc with an unmatched bracket. -/
def urlsplitRest (scheme : PyStr) (u0 : PyStr) : Except PyErr UrlParts :=
  if badNetlocBrackets (netlocPhase u0).fst then
    Except.error (PyErr.valueError (pstr "Invalid IPv6 URL"))
  else
    Except.ok
      ⟨scheme,
       (netlocPhase u0).fst,
       (queryPhase (fragPhase (netlocPhase u0).snd).fst).fst,
       (queryPhase (fragPhase (netlocPhase u0).snd).fst).snd,
       (fragPhase (netlocPhase u0).snd).snd⟩

/-- Python 2.7 `urlparse.urlsplit(url)` (scheme detection: text before
the first `:` is a scheme when it is nonempty, made of scheme
characters, and the remainder is not a bare port number; `http` is the
fast path). -/
def urlsplit (url : PyStr) : Except PyErr UrlParts :=
  match idxOfChar ':' url with
  | some i =>
    if 0 < i then
      if url.take i = pstr "http" then
        urlsplitRest (lowerP (url.take i)) (url.drop (i + 1))
      else if (url.take i).all schemeChar &&
          ((url.drop (i + 1)).isEmpty || !((url.drop (i + 1)).all Char.isDigit)) then
        urlsplitRest (lowerP (url.take i)) (url.drop (i + 1))
      else urlsplitRest [] url
    else urlsplitRest [] url
  | none => urlsplitRest [] url

/-- Python 2.7 `urlparse._splitparams(url)`: split `;params` off the
last path segment — after the last `/` when the path has one.  (The
caller only invokes it when `;` occurs in the path, so the `find` of
the no-slash branch always succeeds there.) -/
def splitparams (url : PyStr) : PyStr × PyStr :=
  if hasChar '/' url then
    match rIdxOfChar '/' url with
    | none => (url, [])
    | some j =>
      match idxOfChar ';' (url.drop j) with
      | none => (url, [])
      | some k => (url.take (j + k), url.drop (j + k + 1))
  else
    match idxOfChar ';' url with
    | none => (url, [])
    | some i => (url.take i, url.drop (i + 1))

/-- Python 2.7 `urlparse.uses_params`. -/
def uses_params : List PyStr :=
  [pstr "ftp", pstr "hdl", pstr "prospero", pstr "http", pstr "imap",
   pstr "https", pstr "shttp", pstr "rtsp", pstr "rtspu", pstr "sip",
   pstr "sips", pstr "mms", pstr "", pstr "sftp", pstr "tel"]

/-- The components of a parsed URL (`urlparse.ParseResult`). -/
structure ParseResult where
  scheme : PyStr
  netloc : PyStr
  path : PyStr
  params : PyStr
  query : PyStr
  fragment : PyStr
deriving DecidableEq

/-- The params phase of `urlparse.urlparse`: for schemes that use
parameters, split `;params` off the last path segment. -/
def urlparseParams (parts : UrlParts) : ParseResult :=
  if uses_params.contains parts.scheme && hasChar ';' parts.path then
    ⟨parts.scheme, parts.netloc, (splitparams parts.path).fst,
     (splitparams parts.path).snd, parts.query, parts.fragment⟩
  else
    ⟨parts.scheme, parts.netloc, parts.path, [], parts.query, parts.fragment⟩

/-- Python 2.7 `urlparse.urlparse(url)`: `urlsplit`, then the params
split. -/
def urlparse (url : PyStr) : Except PyErr ParseResult :=
  match urlsplit url with
  | Except.error e => Except.error e
  | Except.ok parts => Except.ok (urlparseParams parts)

/-! ## URL normalizers -/

/-- `NBViewerHandler.get`, the URL-rewriting part (before it delegates
to `BaseFetcher`): parse the URL, split the path on `/`, read the kind
segment `path_segs[1]` (an out-of-bounds index raises `IndexError`),
and rebuild the raw-content URL per kind.  An exception raised by
`urlparse.urlparse` propagates. -/
def nbviewer_rewrite (url : PyStr) : Except PyErr PyStr :=
  match urlparse url with
  | Except.error e => Except.error e
  | Except.ok url_parts =>
  let path_segs := splitOnChar '/' url_parts.path
  match path_segs.get? 1 with
  | none => Except.error PyErr.indexError
  | some kind =>
    if kind = pstr "gist" then
      Except.ok (pstr "https://gist.githubusercontent.com/" ++
        joinChar '/' (path_segs.drop 2) ++ pstr "/raw")
    else if kind = pstr "github" then
      Except.ok (pstr "https://raw.githubusercontent.com/" ++
        joinChar '/' ((path_segs.drop 2).take 2) ++
        '/' :: joinChar '/' (path_segs.drop 5))
    else if kind = pstr "url" then
      Except.ok (pstr "http://" ++ joinChar '/' (path_segs.drop 2))
    else
      Except.error (PyErr.httpError 400 (pstr "Unknown nbviewer URL type " ++ kind))

/-- `GitHubHandler.get`, the URL-rewriting part: dispatch on the netloc
when the path has more than two `/`-split segments; Python slices
(`path_segs[1:3]`, `path_segs[4:]`) never raise.  An exception raised
by `urlparse.urlparse` propagates. -/
def github_rewrite (url : PyStr) : Except PyErr PyStr :=
  match urlparse url with
  | Except.error e => Except.error e
  | Except.ok url_parts =>
  let path_segs := splitOnChar '/' url_parts.path
  let site := url_parts.netloc
  if path_segs.length > 2 then
    if site = pstr "gist.github.com" then
      Except.ok (pstr "https://gist.githubusercontent.com/" ++
        joinChar '/' ((path_segs.drop 1).take 2) ++ pstr "/raw")
    else if site = pstr "github.com" then
      Except.ok (pstr "https://raw.githubusercontent.com/" ++
        joinChar '/' ((path_segs.drop 1).take 2) ++
        '/' :: joinChar '/' (path_segs.drop 4))
    else
      Except.error (PyErr.httpError 400 (pstr "Unknown github URL type " ++ url))
  else
    Except.error (PyErr.httpError 400 (pstr "Unknown github URL type " ++ url))

/-! ## Validation policy and response processing (`BaseFetcher`) -/

/-- The `requests.Response` fields the module reads.  Body bytes are
modelled as characters; `iter_content(chunk_size=8192)` yields
`chunks` in order. -/
structure HttpResponse where
  status_code : Nat
  url : PyStr
  reason : PyStr
  text : PyStr
  headers : List (PyStr × PyStr)
  chunks : List PyStr
deriving DecidableEq

/-- `response.headers.get(key, None)`: `requests` headers are a
case-insensitive dictionary. -/
def headerGet (headers : List (PyStr × PyStr)) (key : PyStr) : Option PyStr :=
  (headers.find? fun kv => lowerP kv.fst == lowerP key).map Prod.snd

/-- `BaseFetcher.supported_content_types`. -/
def supported_content_types : List PyStr :=
  [pstr "text/plain", pstr "text/csv", pstr "application/json"]

/-- `BaseFetcher.max_content_length` (20 MB). -/
def max_content_length : Int := 20480000

/-- Python `s.startswith(tuple_of_prefixes)`. -/
def pyStartsWith (s : PyStr) (tup : List PyStr) : Bool :=
  tup.any fun p => p.isPrefixOf s

/-- `'{}'.format(x)` where `x` is a string or `None`. -/
def formatOptStr : Option PyStr → PyStr
  | none => pstr "None"
  | some s => s

/-- `BaseFetcher.check_content_type(response, supported_content_types=None)`.
The `None` default (falsy, replaced by the class attribute through
`supported_content_types or self.supported_content_types`) is encoded
as the empty list. -/
def check_content_type (resp : HttpResponse) (supported_arg : List PyStr) :
    Except PyErr Unit :=
  let allowed := if supported_arg.isEmpty then supported_content_types else supported_arg
  let content_type := headerGet resp.headers (pstr "content-type")
  if content_type.isNone || (pyStartsWith (formatOptStr content_type) allowed == false) then
    Except.error (PyErr.httpError 415
      (pstr "Error retrieving resource: Content-Type " ++ formatOptStr content_type ++
        pstr " not supported."))
  else
    Except.ok ()

/-- Python whitespace (`str.strip()` / `int()` ignore it). -/
def pyWs (c : Char) : Bool :=
  c = ' ' || c = '\t' || c = '\n' || c = '\r' || c = '\x0b' || c = '\x0c'

/-- Numeric value of a string of decimal digits. -/
def digitsVal (s : PyStr) : Nat :=
  s.foldl (fun a c => 10 * a + (c.toNat - 48)) 0

/-- Python 2 `int(s)` for base 10: optional surrounding whitespace, an
optional sign, then at least one digit; anything else raises
`ValueError`, modelled as `none`. -/
def pyIntParse (s : PyStr) : Option Int :=
  let t := ((s.dropWhile pyWs).reverse.dropWhile pyWs).reverse
  match t with
  | '+' :: rest =>
    if !rest.isEmpty && rest.all Char.isDigit then some (digitsVal rest) else none
  | '-' :: rest =>
    if !rest.isEmpty && rest.all Char.isDigit then some (-(digitsVal rest : Int)) else none
  | rest =>
    if !rest.isEmpty && rest.all Char.isDigit then some (digitsVal rest) else none

/-- Python 2 `str(n)` for an integer. -/
def intRepr (n : Int) : PyStr := (toString n).data

/-- `BaseFetcher.check_content_length(response, max_length=None)`.  The
`None` default (falsy, replaced by the class attribute through
`max_length or self.max_content_length`) is encoded as `0`. -/
def check_content_length (resp : HttpResponse) (max_length : Int) :
    Except PyErr Unit :=
  let max_len := if max_length = 0 then max_content_length else max_length
  match headerGet resp.headers (pstr "content-length") with
  | none => Except.ok ()
  | some raw =>
    match pyIntParse raw with
    | none => Except.ok ()
    | some content_length =>
      if content_length > max_len then
        Except.error (PyErr.httpError 413
          (pstr "Error retrieving resource: content length " ++ intRepr content_length ++
            pstr " exceeds maximum allowed " ++ intRepr max_len ++ pstr "."))
      else
        Except.ok ()

/-- `requests.Response.ok`: `raise_for_status` raises exactly for
status codes in [400, 600), so `ok` is their complement. -/
def respOk (status_code : Nat) : Bool :=
  if 400 ≤ status_code ∧ status_code < 600 then false else true

/-- A file created by `tempfile.NamedTemporaryFile(mode='w+b', dir=dst,
delete=False)` and the bytes written to it. -/
structure TempFile where
  dir : PyStr
  name : PyStr
  content : PyStr
deriving DecidableEq

/-- Result of `BaseFetcher.process_response`: the returned path (or the
raised error) together with the temporary files created in the
destination directory during the call. -/
structure FetchOutcome where
  result : Except PyErr PyStr
  created : List TempFile

/-- The download loop: `for chunk in resp.iter_content(chunk_size=8192):
if chunk: dst_file.write(chunk)` (falsy chunks, i.e. empty ones, are
skipped). -/
def stream_chunks (chunks : List PyStr) : PyStr :=
  chunks.foldl (fun acc chunk => if chunk.isEmpty then acc else acc ++ chunk) []

/-- `BaseFetcher.process_response(response, dst)`: fail on a non-ok
status, then validate content-type and content-length against the
headers, and only then create the temporary file and stream the body
into it.  `tmpname` is the fresh file name chosen by
`NamedTemporaryFile(dir=dst)`; its path is `dst/tmpname`. -/
def process_response (resp : HttpResponse) (dst : PyStr) (tmpname : PyStr) :
    FetchOutcome :=
  if respOk resp.status_code = false then
    ⟨Except.error (PyErr.httpError resp.status_code
        (pstr "Unable to retrieve resource at " ++ resp.url ++ pstr ": " ++
          (if resp.reason.isEmpty then resp.text else resp.reason) ++ pstr ".")), []⟩
  else
    match check_content_type resp [] with
    | Except.error e => ⟨Except.error e, []⟩
    | Except.ok _ =>
      match check_content_length resp 0 with
      | Except.error e => ⟨Except.error e, []⟩
      | Except.ok _ =>
        ⟨Except.ok (dst ++ '/' :: tmpname),
          [⟨dst, tmpname, stream_chunks resp.chunks⟩]⟩

/-! ## The dispatcher (`__fetchers` and `FetchesHandler.post`)

The three dispatch patterns are embedded as regular expressions over
the limited syntax they use: literal characters, the wildcard `.`
(any character except a newline) and an optional group `(...)?`.
`re.match` anchors at the start of the string and does not require the
whole string to be consumed, so a trailing `.*` never constrains a
match; each pattern is stored without its trailing `.*` and matching
is "some prefix of the input matches the pattern".  In particular the
catch-all pattern `.*` is the empty pattern, which matches every
input. -/

/-- Regex atoms used by the dispatch patterns (`seq` chains the
contents of a group). -/
inductive Rx where
  | lit (c : Char)
  | dot
  | seq (a b : Rx)
  | opt (g : Rx)

/-- Size of one regex node. -/
def rxSize : Rx → Nat
  | Rx.lit _ => 1
  | Rx.dot => 1
  | Rx.seq a b => 1 + rxSize a + rxSize b
  | Rx.opt g => 1 + rxSize g

/-- Size of a pattern, a bound on the backtracking depth. -/
def patSize : List Rx → Nat
  | [] => 0
  | r :: ps => rxSize r + patSize ps

/-- Fuelled backtracking matcher: does some prefix of `s` match the
pattern?  Each step strictly decreases `patSize ps + s.length`, so the
fuel `rxMatch` supplies makes the answer exact. -/
def rxAcceptF : Nat → List Rx → PyStr → Bool
  | 0, _, _ => false
  | _ + 1, [], _ => true
  | _ + 1, Rx.lit _ :: _, [] => false
  | fuel + 1, Rx.lit c :: ps, a :: s => a = c && rxAcceptF fuel ps s
  | _ + 1, Rx.dot :: _, [] => false
  | fuel + 1, Rx.dot :: ps, a :: s => decide (a ≠ '\n') && rxAcceptF fuel ps s
  | fuel + 1, Rx.seq a b :: ps, s => rxAcceptF fuel (a :: b :: ps) s
  | fuel + 1, Rx.opt g :: ps, s => rxAcceptF fuel (g :: ps) s || rxAcceptF fuel ps s

/-- `re.match(pattern, s)` viewed as a Boolean: anchored prefix match. -/
def rxMatch (ps : List Rx) (s : PyStr) : Bool :=
  rxAcceptF (patSize ps + s.length + 1) ps s

/-- Literal regex text. -/
def rxLits (s : String) : List Rx := s.data.map Rx.lit

/-- A `( ... )` group: its contents chained with `seq`. -/
def rxGroup : List Rx → Rx
  | [] => Rx.opt Rx.dot
  | [r] => r
  | r :: rs => Rx.seq r (rxGroup rs)

/-- `r'^http://nbviewer.ipython.org/.*'` without its trailing `.*`
(the dots of `nbviewer.ipython.org` are unescaped wildcards). -/
def nbviewer_pattern : List Rx :=
  rxLits "http://nbviewer" ++ [Rx.dot] ++ rxLits "ipython" ++ [Rx.dot] ++ rxLits "org/"

/-- `r'^https?://(gist\.)?github.com/.*'` without its trailing `.*`
(the dot of `github.com` is an unescaped wildcard; the one in the
group is escaped). -/
def github_pattern : List Rx :=
  rxLits "http" ++ [Rx.opt (Rx.lit 's')] ++ rxLits "://" ++
    [Rx.opt (rxGroup (rxLits "gist" ++ [Rx.lit '.']))] ++
    rxLits "github" ++ [Rx.dot] ++ rxLits "com/"

/-- The three fetcher classes of the module. -/
inductive FetcherKind where
  | nbviewer
  | github
  | base
deriving DecidableEq

/-- The module-level `__fetchers` table: ordered (class, pattern)
rules, ending with the catch-all `.*`. -/
def fetchers_table : List (FetcherKind × List Rx) :=
  [(FetcherKind.nbviewer, nbviewer_pattern),
   (FetcherKind.github, github_pattern),
   (FetcherKind.base, [])]

/-- The rule loop of `FetchesHandler.post` as written: first rule whose
regex matches wins; the `for`/`else` falls back to `BaseFetcher` when
no rule matches.  (See `C1_dispatch_global_lookup_fails`: at run time
this loop is never reached, because the lookup of the mangled name of
`__fetchers` raises `NameError` first.) -/
def select_fetcher (url : PyStr) : FetcherKind :=
  match fetchers_table.find? (fun rule => rxMatch rule.snd url) with
  | some rule => rule.fst
  | none => FetcherKind.base

/-! ## CPython private-name mangling

Any identifier that textually occurs inside a `class` body, begins
with two or more underscores and does not end in two or more
underscores is compiled as `_ClassName<identifier>` (leading
underscores of the class name stripped).  `FetchesHandler.post` reads
the module-level list `__fetchers` from inside `class FetchesHandler`,
so the generated code looks up a different global name. -/

/-- The compile-time mangling rule for an identifier occurring inside
`class clsName`. -/
def pyMangle (clsName ident : PyStr) : PyStr :=
  if (pstr "__").isPrefixOf ident && !((pstr "__").isSuffixOf ident) then
    '_' :: (clsName.dropWhile (· = '_')) ++ ident
  else ident

/-- The names bound at module level in `fetches.py`: the `import`ed
names and the module's own definitions. -/
def fetches_module_globals : List PyStr :=
  [pstr "url_path_join", pstr "url_unescape", pstr "IPythonHandler",
   pstr "path_regex", pstr "web", pstr "gen", pstr "RequestException",
   pstr "closing", pstr "requests", pstr "tempfile", pstr "re", pstr "os",
   pstr "urlparse", pstr "BaseFetcher", pstr "NBViewerHandler",
   pstr "GitHubHandler", pstr "__fetchers", pstr "FetchesHandler",
   pstr "load_jupyter_server_extension"]


/-! ## Character classes for well-formed URL pieces

Hypotheses of the general theorems below constrain URL components the
way the URL grammar does: a path segment contains no `/`, `?` or `#`;
the part of a path after the host contains no `?` or `#`; a query
string contains no `#`. -/

/-- The character may appear in a single path segment. -/
def segChar (c : Char) : Bool := !(c == '/' || c == '?' || c == '#')

/-- The character may appear in a path (no query/fragment delimiters). -/
def pathChar (c : Char) : Bool := !(c == '?' || c == '#')

/-- A well-formed single path segment. -/
def segOk (s : PyStr) : Bool := s.all segChar

/-- A well-formed path remainder (may contain `/`). -/
def pathOk (s : PyStr) : Bool := s.all pathChar

/-- A well-formed query string (no `#`). -/
def queryOk (s : PyStr) : Bool := s.all fun c => !(c == '#')

/-! ## Helper lemmas about the string primitives -/

theorem segOk_mem {s : PyStr} (h : segOk s = true) :
    ∀ c ∈ s, c ≠ '/' ∧ c ≠ '?' ∧ c ≠ '#' := by
  intro c hc
  have := (List.all_eq_true.mp h) c hc
  simp [segChar] at this
  tauto

theorem pathOk_mem {s : PyStr} (h : pathOk s = true) :
    ∀ c ∈ s, c ≠ '?' ∧ c ≠ '#' := by
  intro c hc
  have := (List.all_eq_true.mp h) c hc
  simp [pathChar] at this
  exact this

theorem queryOk_mem {s : PyStr} (h : queryOk s = true) : ∀ c ∈ s, c ≠ '#' := by
  intro c hc
  have := (List.all_eq_true.mp h) c hc
  simp at this
  exact this

theorem pathOk_of_segOk {s : PyStr} (h : segOk s = true) : pathOk s = true := by
  simp only [segOk, List.all_eq_true] at h
  simp only [pathOk, List.all_eq_true]
  intro c hc
  have := h c hc
  simp [segChar] at this
  simp [pathChar]
  tauto

theorem hasChar_eq_false {x : Char} {s : PyStr} (h : ∀ c ∈ s, c ≠ x) :
    hasChar x s = false := by
  induction s with
  | nil => rfl
  | cons c rest ih =>
    have hc : c ≠ x := h c (by simp)
    simp only [hasChar, if_neg hc]
    exact ih fun d hd => h d (by simp [hd])

theorem hasChar_append_self (x : Char) (a b : PyStr) :
    hasChar x (a ++ x :: b) = true := by
  induction a with
  | nil => simp [hasChar]
  | cons c rest ih =>
    by_cases hc : c = x <;> simp [hasChar, hc, ih]

theorem splitFirst_append {sep : Char} {a b : PyStr} (h : ∀ c ∈ a, c ≠ sep) :
    splitFirst sep (a ++ sep :: b) = (a, b) := by
  induction a with
  | nil => simp [splitFirst]
  | cons c rest ih =>
    have hc : c ≠ sep := h c (by simp)
    have := ih fun d hd => h d (by simp [hd])
    simp [splitFirst, hc, this]

theorem splitNetloc_append {a : PyStr} {c : Char} {b : PyStr}
    (h : ∀ x ∈ a, x ≠ '/' ∧ x ≠ '?' ∧ x ≠ '#')
    (hc : c = '/' ∨ c = '?' ∨ c = '#') :
    splitNetloc (a ++ c :: b) = (a, c :: b) := by
  induction a with
  | nil => simp [splitNetloc, hc]
  | cons d rest ih =>
    have hd := h d (by simp)
    have hne : ¬(d = '/' ∨ d = '?' ∨ d = '#') := by
      rcases hd with ⟨h1, h2, h3⟩
      rintro (h' | h' | h') <;> contradiction
    have := ih fun x hx => h x (by simp [hx])
    simp [splitNetloc, hne, this]

theorem splitOnChar_ne_nil (sep : Char) (s : PyStr) : splitOnChar sep s ≠ [] := by
  cases s with
  | nil => simp [splitOnChar]
  | cons c rest =>
    simp only [splitOnChar]
    by_cases hc : c = sep
    · simp [hc]
    · rw [if_neg hc]
      cases h : splitOnChar sep rest <;> simp

theorem splitOnChar_of_no_sep {sep : Char} {a : PyStr} (h : ∀ c ∈ a, c ≠ sep) :
    splitOnChar sep a = [a] := by
  induction a with
  | nil => rfl
  | cons c rest ih =>
    have hc : c ≠ sep := h c (by simp)
    have := ih fun d hd => h d (by simp [hd])
    simp [splitOnChar, hc, this]

theorem splitOnChar_append {sep : Char} {a b : PyStr} (h : ∀ c ∈ a, c ≠ sep) :
    splitOnChar sep (a ++ sep :: b) = a :: splitOnChar sep b := by
  induction a with
  | nil => simp [splitOnChar]
  | cons c rest ih =>
    have hc : c ≠ sep := h c (by simp)
    have := ih fun d hd => h d (by simp [hd])
    simp [splitOnChar, hc, this]

theorem joinChar_cons {sep : Char} {x : PyStr} {xs : List PyStr} (h : xs ≠ []) :
    joinChar sep (x :: xs) = x ++ sep :: joinChar sep xs := by
  cases xs with
  | nil => exact absurd rfl h
  | cons y t => rfl

theorem joinChar_splitOnChar (sep : Char) (s : PyStr) :
    joinChar sep (splitOnChar sep s) = s := by
  induction s with
  | nil => rfl
  | cons c rest ih =>
    simp only [splitOnChar]
    by_cases hc : c = sep
    · rw [if_pos hc, joinChar_cons (splitOnChar_ne_nil sep rest), ih, hc]
      rfl
    · rw [if_neg hc]
      cases h : splitOnChar sep rest with
      | nil => exact absurd h (splitOnChar_ne_nil sep rest)
      | cons hd t =>
        rw [h] at ih
        cases t with
        | nil =>
          simp only [joinChar] at ih ⊢
          rw [ih]
        | cons t0 ts =>
          rw [joinChar_cons (by simp)] at ih
          rw [joinChar_cons (by simp), List.cons_append, ih]

theorem idxOfChar_append {x : Char} {a : PyStr} (h : ∀ c ∈ a, c ≠ x) (b : PyStr) :
    idxOfChar x (a ++ x :: b) = some a.length := by
  induction a with
  | nil => simp [idxOfChar]
  | cons c rest ih =>
    have hc : c ≠ x := h c (by simp)
    have := ih fun d hd => h d (by simp [hd])
    simp [idxOfChar, hc, this]

theorem idxOfChar_no_occ {x : Char} {a : PyStr} (h : ∀ c ∈ a, c ≠ x) :
    idxOfChar x a = none := by
  induction a with
  | nil => rfl
  | cons c rest ih =>
    have hc : c ≠ x := h c (by simp)
    have := ih fun d hd => h d (by simp [hd])
    simp [idxOfChar, hc, this]

theorem hasChar_cons_eq_false {x c : Char} {s : PyStr} (hc : c ≠ x)
    (hs : hasChar x s = false) : hasChar x (c :: s) = false := by
  simp [hasChar, hc, hs]

theorem hasChar_append_eq_false {x : Char} {a b : PyStr}
    (ha : hasChar x a = false) (hb : hasChar x b = false) :
    hasChar x (a ++ b) = false := by
  induction a with
  | nil => exact hb
  | cons c rest ih =>
    simp only [hasChar] at ha
    by_cases hc : c = x
    · rw [if_pos hc] at ha
      cases ha
    · rw [if_neg hc] at ha
      exact hasChar_cons_eq_false hc (ih ha)

theorem drop_length_succ_append (a : PyStr) (c : Char) (b : PyStr) :
    (a ++ c :: b).drop (a.length + 1) = b := by
  induction a with
  | nil => simp
  | cons d rest ih =>
    simp only [List.cons_append, List.length_cons]
    rw [show rest.length + 1 + 1 = rest.length + 1 + 1 from rfl, List.drop_succ_cons]
    exact ih

/-! ## Symbolic evaluation of `urlsplit` on well-formed http/https URLs -/

theorem urlsplit_http (rest : PyStr) :
    urlsplit (pstr "http" ++ ':' :: rest) = urlsplitRest (pstr "http") rest := rfl

theorem urlsplit_https (x : PyStr) :
    urlsplit (pstr "https" ++ ':' :: '/' :: '/' :: x) =
      urlsplitRest (pstr "https") ('/' :: '/' :: x) := rfl

theorem netlocPhase_slashes (x : PyStr) : netlocPhase ('/' :: '/' :: x) = splitNetloc x := rfl

theorem fragPhase_no_hash {u : PyStr} (h : hasChar '#' u = false) :
    fragPhase u = (u, []) := by
  unfold fragPhase
  rw [h]
  simp

theorem fragPhase_append {a b : PyStr} (h : ∀ c ∈ a, c ≠ '#') :
    fragPhase (a ++ '#' :: b) = (a, b) := by
  unfold fragPhase
  rw [hasChar_append_self, if_pos rfl, splitFirst_append h]

theorem queryPhase_no_q {u : PyStr} (h : hasChar '?' u = false) :
    queryPhase u = (u, []) := by
  unfold queryPhase
  rw [h]
  simp

theorem queryPhase_append {a b : PyStr} (h : ∀ c ∈ a, c ≠ '?') :
    queryPhase (a ++ '?' :: b) = (a, b) := by
  unfold queryPhase
  rw [hasChar_append_self, if_pos rfl, splitFirst_append h]

theorem no_hash_slash_path {tail : PyStr} (htail : pathOk tail = true) :
    hasChar '#' ('/' :: tail) = false := by
  apply hasChar_eq_false
  intro c hc
  rcases List.mem_cons.mp hc with h | h
  · subst h; decide
  · exact ((pathOk_mem htail) c h).2

theorem no_q_slash_path {tail : PyStr} (htail : pathOk tail = true) :
    hasChar '?' ('/' :: tail) = false := by
  apply hasChar_eq_false
  intro c hc
  rcases List.mem_cons.mp hc with h | h
  · subst h; decide
  · exact ((pathOk_mem htail) c h).1

theorem urlsplitRest_parts (sch host tail : PyStr)
    (hhost : segOk host = true) (htail : pathOk tail = true)
    (hbr : badNetlocBrackets host = false) :
    urlsplitRest sch ('/' :: '/' :: (host ++ '/' :: tail)) =
      Except.ok ⟨sch, host, '/' :: tail, [], []⟩ := by
  have hn : netlocPhase ('/' :: '/' :: (host ++ '/' :: tail)) = (host, '/' :: tail) := by
    rw [netlocPhase_slashes, splitNetloc_append (segOk_mem hhost) (Or.inl rfl)]
  have hf : fragPhase ('/' :: tail) = ('/' :: tail, []) :=
    fragPhase_no_hash (no_hash_slash_path htail)
  have hq2 : queryPhase ('/' :: tail) = ('/' :: tail, []) :=
    queryPhase_no_q (no_q_slash_path htail)
  simp [urlsplitRest, hn, hf, hq2, hbr]

theorem urlsplitRest_parts_qf (sch host tail q f : PyStr)
    (hhost : segOk host = true) (htail : pathOk tail = true)
    (hq : queryOk q = true) (hbr : badNetlocBrackets host = false) :
    urlsplitRest sch ('/' :: '/' :: (host ++ '/' :: (tail ++ '?' :: (q ++ '#' :: f)))) =
      Except.ok ⟨sch, host, '/' :: tail, q, f⟩ := by
  have hnhash : ∀ c ∈ '/' :: (tail ++ '?' :: q), c ≠ '#' := by
    intro c hc
    rcases List.mem_cons.mp hc with h | h
    · subst h; decide
    · rcases List.mem_append.mp h with h | h
      · exact ((pathOk_mem htail) c h).2
      · rcases List.mem_cons.mp h with h | h
        · subst h; decide
        · exact (queryOk_mem hq) c h
  have hnq : ∀ c ∈ '/' :: tail, c ≠ '?' := by
    intro c hc
    rcases List.mem_cons.mp hc with h | h
    · subst h; decide
    · exact ((pathOk_mem htail) c h).1
  have hn : netlocPhase ('/' :: '/' :: (host ++ '/' :: (tail ++ '?' :: (q ++ '#' :: f)))) =
      (host, '/' :: (tail ++ '?' :: (q ++ '#' :: f))) := by
    rw [netlocPhase_slashes, splitNetloc_append (segOk_mem hhost) (Or.inl rfl)]
  have hfr : fragPhase ('/' :: (tail ++ '?' :: (q ++ '#' :: f))) =
      ('/' :: (tail ++ '?' :: q), f) := by
    rw [show ('/' :: (tail ++ '?' :: (q ++ '#' :: f)))
          = ('/' :: (tail ++ '?' :: q)) ++ '#' :: f from by simp]
    exact fragPhase_append hnhash
  have hq2 : queryPhase ('/' :: (tail ++ '?' :: q)) = ('/' :: tail, q) := by
    rw [show ('/' :: (tail ++ '?' :: q)) = ('/' :: tail) ++ '?' :: q from by simp]
    exact queryPhase_append hnq
  simp [urlsplitRest, hn, hfr, hq2, hbr]

theorem urlsplitRest_parts_q (sch host tail q : PyStr)
    (hhost : segOk host = true) (htail : pathOk tail = true)
    (hq : queryOk q = true) (hbr : badNetlocBrackets host = false) :
    urlsplitRest sch ('/' :: '/' :: (host ++ '/' :: (tail ++ '?' :: q))) =
      Except.ok ⟨sch, host, '/' :: tail, q, []⟩ := by
  have hnq : ∀ c ∈ '/' :: tail, c ≠ '?' := by
    intro c hc
    rcases List.mem_cons.mp hc with h | h
    · subst h; decide
    · exact ((pathOk_mem htail) c h).1
  have hn : netlocPhase ('/' :: '/' :: (host ++ '/' :: (tail ++ '?' :: q))) =
      (host, '/' :: (tail ++ '?' :: q)) := by
    rw [netlocPhase_slashes, splitNetloc_append (segOk_mem hhost) (Or.inl rfl)]
  have hfr : fragPhase ('/' :: (tail ++ '?' :: q)) = ('/' :: (tail ++ '?' :: q), []) := by
    apply fragPhase_no_hash
    apply hasChar_eq_false
    intro c hc
    rcases List.mem_cons.mp hc with h | h
    · subst h; decide
    · rcases List.mem_append.mp h with h | h
      · exact ((pathOk_mem htail) c h).2
      · rcases List.mem_cons.mp h with h | h
        · subst h; decide
        · exact (queryOk_mem hq) c h
  have hq2 : queryPhase ('/' :: (tail ++ '?' :: q)) = ('/' :: tail, q) := by
    rw [show ('/' :: (tail ++ '?' :: q)) = ('/' :: tail) ++ '?' :: q from by simp]
    exact queryPhase_append hnq
  simp [urlsplitRest, hn, hfr, hq2, hbr]

theorem urlsplitRest_parts_f (sch host tail f : PyStr)
    (hhost : segOk host = true) (htail : pathOk tail = true)
    (hbr : badNetlocBrackets host = false) :
    urlsplitRest sch ('/' :: '/' :: (host ++ '/' :: (tail ++ '#' :: f))) =
      Except.ok ⟨sch, host, '/' :: tail, [], f⟩ := by
  have hnhash : ∀ c ∈ '/' :: tail, c ≠ '#' := by
    intro c hc
    rcases List.mem_cons.mp hc with h | h
    · subst h; decide
    · exact ((pathOk_mem htail) c h).2
  have hn : netlocPhase ('/' :: '/' :: (host ++ '/' :: (tail ++ '#' :: f))) =
      (host, '/' :: (tail ++ '#' :: f)) := by
    rw [netlocPhase_slashes, splitNetloc_append (segOk_mem hhost) (Or.inl rfl)]
  have hfr : fragPhase ('/' :: (tail ++ '#' :: f)) = ('/' :: tail, f) := by
    rw [show ('/' :: (tail ++ '#' :: f)) = ('/' :: tail) ++ '#' :: f from by simp]
    exact fragPhase_append hnhash
  have hq2 : queryPhase ('/' :: tail) = ('/' :: tail, []) :=
    queryPhase_no_q (no_q_slash_path htail)
  simp [urlsplitRest, hn, hfr, hq2, hbr]

/-- The only error `urlsplitRest` raises is `urlparse`'s
`ValueError("Invalid IPv6 URL")`. -/
theorem urlsplitRest_error_eq {sch u0 : PyStr} {e : PyErr}
    (h : urlsplitRest sch u0 = Except.error e) :
    e = PyErr.valueError (pstr "Invalid IPv6 URL") := by
  unfold urlsplitRest at h
  by_cases hb : badNetlocBrackets (netlocPhase u0).fst = true
  · rw [if_pos hb] at h
    injection h with h2
    exact h2.symm
  · rw [if_neg hb] at h
    cases h

/-- The only error `urlsplit` raises is `ValueError("Invalid IPv6 URL")`. -/
theorem urlsplit_error_eq {u : PyStr} {e : PyErr}
    (h : urlsplit u = Except.error e) :
    e = PyErr.valueError (pstr "Invalid IPv6 URL") := by
  unfold urlsplit at h
  split at h
  · split at h
    · split at h
      · exact urlsplitRest_error_eq h
      · split at h
        · exact urlsplitRest_error_eq h
        · exact urlsplitRest_error_eq h
    · exact urlsplitRest_error_eq h
  · exact urlsplitRest_error_eq h

theorem urlparse_eq_ok {u : PyStr} {parts : UrlParts}
    (h : urlsplit u = Except.ok parts) :
    urlparse u = Except.ok (urlparseParams parts) := by
  unfold urlparse
  rw [h]

theorem urlparse_eq_error {u : PyStr} {e : PyErr}
    (h : urlsplit u = Except.error e) :
    urlparse u = Except.error e := by
  unfold urlparse
  rw [h]

/-- The only error `urlparse` raises is `ValueError("Invalid IPv6 URL")`. -/
theorem urlparse_error_eq {u : PyStr} {e : PyErr}
    (h : urlparse u = Except.error e) :
    e = PyErr.valueError (pstr "Invalid IPv6 URL") := by
  cases hu : urlsplit u with
  | error e2 =>
    rw [urlparse_eq_error hu] at h
    injection h with h2
    rw [← h2]
    exact urlsplit_error_eq hu
  | ok parts =>
    rw [urlparse_eq_ok hu] at h
    cases h

/-- When the path contains no `;`, the params phase leaves the split
result unchanged (empty params). -/
theorem urlparse_no_params {u : PyStr} {parts : UrlParts}
    (h : urlsplit u = Except.ok parts) (hsemi : hasChar ';' parts.path = false) :
    urlparse u = Except.ok
      ⟨parts.scheme, parts.netloc, parts.path, [], parts.query, parts.fragment⟩ := by
  rw [urlparse_eq_ok h]
  unfold urlparseParams
  rw [hsemi]
  simp

/-- The (netloc, path) view of a parse outcome: the components the
normalizers read (errors pass through). -/
def parseView : Except PyErr ParseResult → Except PyErr (PyStr × PyStr)
  | Except.error e => Except.error e
  | Except.ok r => Except.ok (r.netloc, r.path)

theorem parseView_of_urlsplit {u : PyStr} {parts : UrlParts}
    (h : urlsplit u = Except.ok parts) :
    parseView (urlparse u) =
      Except.ok ((urlparseParams parts).netloc, (urlparseParams parts).path) := by
  rw [urlparse_eq_ok h]
  rfl

/-- The params phase reads only the scheme, netloc and path, so two
split results agreeing there give the same (netloc, path). -/
theorem urlparseParams_proj_congr {a b : UrlParts}
    (hs : a.scheme = b.scheme) (hn : a.netloc = b.netloc) (hp : a.path = b.path) :
    (urlparseParams a).netloc = (urlparseParams b).netloc ∧
    (urlparseParams a).path = (urlparseParams b).path := by
  unfold urlparseParams
  rw [hs, hn, hp]
  split <;> exact ⟨rfl, rfl⟩

/-! ## Further bridge lemmas -/

theorem isPrefixOf_eq_true_iff {a b : PyStr} :
    a.isPrefixOf b = true ↔ ∃ t, a ++ t = b := by
  induction a generalizing b with
  | nil => simp [List.isPrefixOf]
  | cons x xs ih =>
    cases b with
    | nil => simp [List.isPrefixOf]
    | cons y ys => simp [List.isPrefixOf, ih]

theorem stream_chunks_eq_flatten (chunks : List PyStr) :
    stream_chunks chunks = chunks.flatten := by
  have aux : ∀ (l : List PyStr) (acc : PyStr),
      l.foldl (fun acc chunk => if chunk.isEmpty then acc else acc ++ chunk) acc
        = acc ++ l.flatten := by
    intro l
    induction l with
    | nil => intro acc; simp
    | cons c t ih =>
      intro acc
      rw [List.foldl_cons, ih]
      cases c with
      | nil => simp
      | cons d ds => simp [List.append_assoc]
  simpa [stream_chunks] using aux chunks []

/-- `nbviewer_rewrite` reads only the path component of the parsed
URL (and propagates parse errors unchanged). -/
theorem nbviewer_rewrite_congr {a b : PyStr}
    (h : parseView (urlparse a) = parseView (urlparse b)) :
    nbviewer_rewrite a = nbviewer_rewrite b := by
  cases ha : urlparse a with
  | error ea =>
    cases hb : urlparse b with
    | error eb =>
      rw [ha, hb] at h
      simp only [parseView] at h
      injection h with h2
      simp [nbviewer_rewrite, ha, hb, h2]
    | ok pb =>
      rw [ha, hb] at h
      simp [parseView] at h
  | ok pa =>
    cases hb : urlparse b with
    | error eb =>
      rw [ha, hb] at h
      simp [parseView] at h
    | ok pb =>
      rw [ha, hb] at h
      simp only [parseView, Except.ok.injEq, Prod.mk.injEq] at h
      simp [nbviewer_rewrite, ha, hb, h.2]

/-- `github_rewrite` reads only the netloc and path components when it
succeeds (its error messages echo the whole input URL). -/
theorem github_rewrite_ok_congr {a b : PyStr}
    (h : parseView (urlparse a) = parseView (urlparse b))
    (out : PyStr) :
    github_rewrite a = Except.ok out ↔ github_rewrite b = Except.ok out := by
  cases ha : urlparse a with
  | error ea =>
    cases hb : urlparse b with
    | error eb => simp [github_rewrite, ha, hb]
    | ok pb =>
      rw [ha, hb] at h
      simp [parseView] at h
  | ok pa =>
    cases hb : urlparse b with
    | error eb =>
      rw [ha, hb] at h
      simp [parseView] at h
    | ok pb =>
      rw [ha, hb] at h
      simp only [parseView, Except.ok.injEq, Prod.mk.injEq] at h
      by_cases h1 : (splitOnChar '/' pb.path).length > 2
      · by_cases h2 : pb.netloc = pstr "gist.github.com"
        · simp [github_rewrite, ha, hb, h.1, h.2, h1, h2]
        · by_cases h3 : pb.netloc = pstr "github.com"
          · simp [github_rewrite, ha, hb, h.1, h.2, h1, h2, h3]
          · simp [github_rewrite, ha, hb, h.1, h.2, h1, h2, h3]
      · simp [github_rewrite, ha, hb, h.1, h.2, h1]

/-! ## Claim theorems -/

/-- C1: the spec claims dispatch never fails and always selects exactly
one fetcher.  In the code, `FetchesHandler.post` iterates over the
module-level list `__fetchers`; because that identifier occurs inside
`class FetchesHandler`, CPython's private-name mangling compiles the
reference as `_FetchesHandler__fetchers`.  That name is not among the
module's globals (only `__fetchers` is), so every request raises
`NameError` before any dispatch rule is evaluated: dispatch fails for
every URL. -/
theorem C1_dispatch_global_lookup_fails :
    pyMangle (pstr "FetchesHandler") (pstr "__fetchers") = pstr "_FetchesHandler__fetchers" ∧
    pstr "__fetchers" ∈ fetches_module_globals ∧
    pyMangle (pstr "FetchesHandler") (pstr "__fetchers") ∉ fetches_module_globals := by
  refine ⟨rfl, ?_, ?_⟩ <;> decide

/-- C5 (amended): for every response whose status code lies in
[400, 600) — the codes for which `requests.Response.ok` is false —
`process_response` raises an HTTPError carrying exactly the upstream
status code, with a message built from the upstream reason phrase (or
the body text when the reason is empty), and creates no file.
Responses with any other status, including non-2xx codes below 400
such as 304, proceed to validation instead. -/
theorem C5_upstream_error (resp : HttpResponse) (dst tmpname : PyStr)
    (h400 : 400 ≤ resp.status_code) (h600 : resp.status_code < 600) :
    (process_response resp dst tmpname).result = Except.error (PyErr.httpError
        resp.status_code
        (pstr "Unable to retrieve resource at " ++ resp.url ++ pstr ": " ++
          (if resp.reason.isEmpty then resp.text else resp.reason) ++ pstr ".")) ∧
    (process_response resp dst tmpname).created = [] := by
  have hok : respOk resp.status_code = false := by
    unfold respOk
    rw [if_pos ⟨h400, h600⟩]
  unfold process_response
  rw [if_pos hok]
  exact ⟨rfl, rfl⟩

theorem C5_witness :
    (process_response ⟨404, pstr "http://x/y", pstr "Not Found", [], [], []⟩
        (pstr "/w") (pstr "t")).result =
      Except.error (PyErr.httpError 404
        (pstr "Unable to retrieve resource at http://x/y: Not Found.")) :=
  (C5_upstream_error ⟨404, pstr "http://x/y", pstr "Not Found", [], [], []⟩
    (pstr "/w") (pstr "t") (by decide) (by decide)).1

/-- C5 (counterexample to the claim as stated): a 304 response is not
2xx, yet `process_response` does not fail with an upstream error — with
an acceptable content-type it succeeds and writes the file, because
`requests.Response.ok` is only false for status codes in [400, 600). -/
def resp304 : HttpResponse :=
  ⟨304, pstr "http://example.org/a", pstr "Not Modified", [],
   [(pstr "content-type", pstr "text/plain")], []⟩

theorem C5_counterexample :
    resp304.status_code = 304 ∧
    ¬(200 ≤ resp304.status_code ∧ resp304.status_code < 300) ∧
    (process_response resp304 (pstr "/work") (pstr "tmp1")).result =
      Except.ok (pstr "/work/tmp1") := by
  refine ⟨rfl, by decide, rfl⟩

/-- C6: whenever `process_response` fails with status 415 or 413 (the
content-type and content-length validation errors), no temporary file
has been created in the destination directory: both header checks run
strictly before `NamedTemporaryFile` is opened. -/
theorem C6_no_file_on_validation_error (resp : HttpResponse) (dst tmpname : PyStr)
    (s : Nat) (m : PyStr)
    (herr : (process_response resp dst tmpname).result =
      Except.error (PyErr.httpError s m))
    (_hs : s = 415 ∨ s = 413) :
    (process_response resp dst tmpname).created = [] := by
  unfold process_response at herr ⊢
  by_cases hok : respOk resp.status_code = false
  · rw [if_pos hok]
  · rw [if_neg hok] at herr ⊢
    cases hct : check_content_type resp [] with
    | error e => rfl
    | ok u =>
      rw [hct] at herr
      cases hcl : check_content_length resp 0 with
      | error e => rfl
      | ok v =>
        rw [hcl] at herr
        simp at herr

theorem C6_witness :
    (process_response ⟨200, pstr "u", pstr "OK", [],
        [(pstr "content-type", pstr "text/html")], [pstr "body"]⟩
      (pstr "/w") (pstr "t")).created = [] :=
  C6_no_file_on_validation_error
    ⟨200, pstr "u", pstr "OK", [], [(pstr "content-type", pstr "text/html")], [pstr "body"]⟩
    (pstr "/w") (pstr "t") 415
    (pstr "Error retrieving resource: Content-Type text/html not supported.")
    rfl (Or.inl rfl)

/-- C7: for every response that passes the status and header checks,
`process_response` returns the path `dst/tmpname` of the single freshly
created temporary file in the destination directory, and that file's
contents are exactly the concatenation of the body chunks in order. -/
theorem C7_success_streams_to_temp_file (resp : HttpResponse) (dst tmpname : PyStr)
    (hok : respOk resp.status_code = true)
    (hct : check_content_type resp [] = Except.ok ())
    (hcl : check_content_length resp 0 = Except.ok ()) :
    (process_response resp dst tmpname).result = Except.ok (dst ++ '/' :: tmpname) ∧
    (process_response resp dst tmpname).created =
      [⟨dst, tmpname, resp.chunks.flatten⟩] := by
  unfold process_response
  rw [if_neg (by simp [hok]), hct, hcl]
  exact ⟨rfl, by simp [stream_chunks_eq_flatten]⟩

def jsonResp : HttpResponse :=
  ⟨200, pstr "http://example.org/a.json", pstr "OK", [],
   [(pstr "content-type", pstr "application/json")], [pstr "\x7b\"a\":1\x7d"]⟩

theorem C7_witness :
    (process_response jsonResp (pstr "/work") (pstr "tmp42")).result =
      Except.ok (pstr "/work/tmp42") ∧
    (process_response jsonResp (pstr "/work") (pstr "tmp42")).created =
      [⟨pstr "/work", pstr "tmp42", pstr "\x7b\"a\":1\x7d"⟩] := by
  have h := C7_success_streams_to_temp_file jsonResp (pstr "/work") (pstr "tmp42") rfl rfl rfl
  exact ⟨h.1, h.2⟩

/-- C3: with the default allow-list {text/plain, text/csv,
application/json}, `check_content_type` fails — with an HTTPError of
status 415 whose message names the rejected content-type (`None` when
the header is absent) — exactly when the `content-type` header is
absent or does not start with any allowed string; and every
content-type that has an allowed string as a prefix is accepted. -/
theorem C3_content_type_check (resp : HttpResponse) :
    supported_content_types =
      [pstr "text/plain", pstr "text/csv", pstr "application/json"] ∧
    (check_content_type resp [] = Except.error (PyErr.httpError 415
        (pstr "Error retrieving resource: Content-Type " ++
          formatOptStr (headerGet resp.headers (pstr "content-type")) ++
          pstr " not supported."))
      ↔ (headerGet resp.headers (pstr "content-type") = none ∨
          ∀ pre ∈ supported_content_types,
            pre.isPrefixOf ((headerGet resp.headers (pstr "content-type")).getD [])
              = false)) ∧
    (∀ ct, headerGet resp.headers (pstr "content-type") = some ct →
      (∃ pre ∈ supported_content_types, ∃ rest, ct = pre ++ rest) →
      check_content_type resp [] = Except.ok ()) := by
  refine ⟨rfl, ?_, ?_⟩
  · cases hct : headerGet resp.headers (pstr "content-type") with
    | none =>
      constructor
      · intro _
        exact Or.inl rfl
      · intro _
        simp [check_content_type, hct]
    | some ct =>
      by_cases hpf : pyStartsWith ct supported_content_types = true
      · have hchk : check_content_type resp [] = Except.ok () := by
          simp [check_content_type, hct, hpf, formatOptStr]
        rw [hchk]
        constructor
        · intro h
          cases h
        · rintro (h | h)
          · cases h
          · exfalso
            unfold pyStartsWith at hpf
            rcases List.any_eq_true.mp hpf with ⟨pre, hmem, hpre⟩
            have h2 := h pre hmem
            simp only [Option.getD_some] at h2
            rw [h2] at hpre
            cases hpre
      · rw [Bool.not_eq_true] at hpf
        have hchk : check_content_type resp [] = Except.error (PyErr.httpError 415
            (pstr "Error retrieving resource: Content-Type " ++ ct ++
              pstr " not supported.")) := by
          simp [check_content_type, hct, hpf, formatOptStr]
        rw [hchk]
        constructor
        · intro _
          refine Or.inr ?_
          intro pre hmem
          simp only [Option.getD_some]
          unfold pyStartsWith at hpf
          have h2 := List.any_eq_false.mp hpf pre hmem
          rw [Bool.not_eq_true] at h2
          exact h2
        · intro _
          simp [formatOptStr]
  · intro ct hct hex
    rcases hex with ⟨pre, hmem, rest, hrest⟩
    have hpf : pyStartsWith ct supported_content_types = true := by
      apply List.any_eq_true.mpr
      exact ⟨pre, hmem, isPrefixOf_eq_true_iff.mpr ⟨rest, hrest.symm⟩⟩
    simp [check_content_type, hct, hpf, formatOptStr]

theorem C3_witness :
    check_content_type ⟨200, [], [], [],
        [(pstr "content-type", pstr "text/html")], []⟩ [] =
      Except.error (PyErr.httpError 415
        (pstr "Error retrieving resource: Content-Type text/html not supported.")) := by
  have h := (C3_content_type_check
    ⟨200, [], [], [], [(pstr "content-type", pstr "text/html")], []⟩).2.1
  exact h.mpr (Or.inr (by decide))

/-- C4: with the default ceiling of 20,480,000 bytes,
`check_content_length` fails — with an HTTPError of status 413 whose
message states the declared length and the ceiling — exactly when the
`content-length` header is present, parses as an integer, and strictly
exceeds the ceiling; an absent header or a value `int()` rejects is
skipped and the check passes. -/
theorem C4_content_length_check (resp : HttpResponse) :
    max_content_length = 20480000 ∧
    (check_content_length resp 0 = Except.ok () ↔
      ¬ ∃ raw n, headerGet resp.headers (pstr "content-length") = some raw ∧
          pyIntParse raw = some n ∧ max_content_length < n) ∧
    (∀ raw n, headerGet resp.headers (pstr "content-length") = some raw →
      pyIntParse raw = some n → max_content_length < n →
      check_content_length resp 0 = Except.error (PyErr.httpError 413
        (pstr "Error retrieving resource: content length " ++ intRepr n ++
          pstr " exceeds maximum allowed " ++ intRepr max_content_length ++
          pstr "."))) ∧
    (headerGet resp.headers (pstr "content-length") = none →
      check_content_length resp 0 = Except.ok ()) ∧
    (∀ raw, headerGet resp.headers (pstr "content-length") = some raw →
      pyIntParse raw = none → check_content_length resp 0 = Except.ok ()) := by
  refine ⟨rfl, ?_, ?_, ?_, ?_⟩
  · cases hh : headerGet resp.headers (pstr "content-length") with
    | none =>
      have : check_content_length resp 0 = Except.ok () := by
        simp [check_content_length, hh]
      rw [this]
      simp [hh]
    | some raw =>
      cases hp : pyIntParse raw with
      | none =>
        have : check_content_length resp 0 = Except.ok () := by
          simp [check_content_length, hh, hp]
        rw [this]
        constructor
        · rintro _ ⟨raw2, n, hraw2, hn, _⟩
          cases hraw2
          rw [hp] at hn
          cases hn
        · intro _
          rfl
      | some n =>
        by_cases hgt : n > max_content_length
        · have : check_content_length resp 0 = Except.error (PyErr.httpError 413
              (pstr "Error retrieving resource: content length " ++ intRepr n ++
                pstr " exceeds maximum allowed " ++ intRepr max_content_length ++
                pstr ".")) := by
            simp [check_content_length, hh, hp, hgt]
          rw [this]
          constructor
          · intro h
            cases h
          · intro h
            exact absurd ⟨raw, n, rfl, hp, hgt⟩ h
        · have : check_content_length resp 0 = Except.ok () := by
            simp [check_content_length, hh, hp, hgt]
          rw [this]
          constructor
          · rintro _ ⟨raw2, n2, hraw2, hn2, hbig⟩
            cases hraw2
            rw [hp] at hn2
            cases hn2
            exact hgt hbig
          · intro _
            rfl
  · intro raw n hh hp hgt
    simp [check_content_length, hh, hp, hgt]
  · intro hh
    simp [check_content_length, hh]
  · intro raw hh hp
    simp [check_content_length, hh, hp]

theorem C4_witness :
    check_content_length ⟨200, [], [], [],
        [(pstr "content-length", pstr "99999999999")], []⟩ 0 =
      Except.error (PyErr.httpError 413
        (pstr "Error retrieving resource: content length 99999999999 exceeds maximum allowed 20480000.")) := by
  have h := (C4_content_length_check
    ⟨200, [], [], [], [(pstr "content-length", pstr "99999999999")], []⟩).2.2.1
  exact h (pstr "99999999999") 99999999999 rfl rfl (by decide)

/-- C2 (amended): for every nbviewer URL of the form
`http://nbviewer.ipython.org/github/<user>/<repo>/blob/<branch>/<path>`
whose components are free of the URL delimiters `/`, `?`, `#` (the
trailing path may contain `/`) and of the parameter delimiter `;`,
the nbviewer normalizer produces
`https://raw.githubusercontent.com/<user>/<repo>/<branch>/<path>`:
path segments [2:4] joined give user/repo, segments [5:] joined give
the remainder after the `blob` marker segment.  When the last path
segment carries a `;params` suffix, `urlparse.urlparse` strips it
before the rewrite, so the output differs from the claimed one (see
the counterexample). -/
theorem C2_nbviewer_github_normalization (u r b p : PyStr)
    (hu : segOk u = true) (hr : segOk r = true) (hb : segOk b = true)
    (hp : pathOk p = true)
    (hu2 : hasChar ';' u = false) (hr2 : hasChar ';' r = false)
    (hb2 : hasChar ';' b = false) (hp2 : hasChar ';' p = false) :
    nbviewer_rewrite (pstr "http://nbviewer.ipython.org/github/" ++
        (u ++ ('/' :: (r ++ (pstr "/blob/" ++ (b ++ ('/' :: p))))))) =
      Except.ok (pstr "https://raw.githubusercontent.com/" ++
        (u ++ ('/' :: (r ++ ('/' :: (b ++ ('/' :: p))))))) := by
  have hu' := segOk_mem hu
  have hr' := segOk_mem hr
  have hb' := segOk_mem hb
  have htail : pathOk (pstr "github/" ++
      (u ++ ('/' :: (r ++ (pstr "/blob/" ++ (b ++ ('/' :: p))))))) = true := by
    have hg : (pstr "github/").all pathChar = true := by decide
    have hbl : (pstr "/blob/").all pathChar = true := by decide
    have hsl : pathChar '/' = true := by decide
    have h1 := pathOk_of_segOk hu
    have h2 := pathOk_of_segOk hr
    have h3 := pathOk_of_segOk hb
    simp only [pathOk] at h1 h2 h3 hp ⊢
    simp [List.all_append, List.all_cons, hg, hbl, hsl, h1, h2, h3, hp]
  have hurl : urlsplit (pstr "http://nbviewer.ipython.org/github/" ++
      (u ++ ('/' :: (r ++ (pstr "/blob/" ++ (b ++ ('/' :: p))))))) =
      Except.ok ⟨pstr "http", pstr "nbviewer.ipython.org",
        '/' :: (pstr "github/" ++
          (u ++ ('/' :: (r ++ (pstr "/blob/" ++ (b ++ ('/' :: p))))))), [], []⟩ := by
    rw [show (pstr "http://nbviewer.ipython.org/github/" ++
          (u ++ ('/' :: (r ++ (pstr "/blob/" ++ (b ++ ('/' :: p))))))) =
        pstr "http" ++ ':' :: '/' :: '/' :: (pstr "nbviewer.ipython.org" ++
          '/' :: (pstr "github/" ++
            (u ++ ('/' :: (r ++ (pstr "/blob/" ++ (b ++ ('/' :: p)))))))) from rfl]
    rw [urlsplit_http]
    exact urlsplitRest_parts _ _ _ (by decide) htail (by decide)
  have hsemi : hasChar ';' ('/' :: (pstr "github/" ++
      (u ++ ('/' :: (r ++ (pstr "/blob/" ++ (b ++ ('/' :: p)))))))) = false := by
    refine hasChar_cons_eq_false (by decide) ?_
    refine hasChar_append_eq_false (by decide) ?_
    refine hasChar_append_eq_false hu2 ?_
    refine hasChar_cons_eq_false (by decide) ?_
    refine hasChar_append_eq_false hr2 ?_
    refine hasChar_append_eq_false (by decide) ?_
    refine hasChar_append_eq_false hb2 ?_
    exact hasChar_cons_eq_false (by decide) hp2
  have hpp : urlparse (pstr "http://nbviewer.ipython.org/github/" ++
      (u ++ ('/' :: (r ++ (pstr "/blob/" ++ (b ++ ('/' :: p))))))) =
      Except.ok ⟨pstr "http", pstr "nbviewer.ipython.org",
        '/' :: (pstr "github/" ++
          (u ++ ('/' :: (r ++ (pstr "/blob/" ++ (b ++ ('/' :: p))))))), [], [], []⟩ :=
    urlparse_no_params hurl hsemi
  have hsegs : splitOnChar '/' ('/' :: (pstr "github/" ++
      (u ++ ('/' :: (r ++ (pstr "/blob/" ++ (b ++ ('/' :: p)))))))) =
      [] :: pstr "github" :: u :: r :: pstr "blob" :: b :: splitOnChar '/' p := by
    rw [show ('/' :: (pstr "github/" ++
          (u ++ ('/' :: (r ++ (pstr "/blob/" ++ (b ++ ('/' :: p)))))))) =
        ([] : PyStr) ++ '/' :: (pstr "github" ++ '/' ::
          (u ++ '/' :: (r ++ '/' :: (pstr "blob" ++ '/' :: (b ++ '/' :: p))))) from rfl]
    rw [splitOnChar_append (show ∀ c ∈ ([] : PyStr), c ≠ '/' by simp)]
    rw [splitOnChar_append (show ∀ c ∈ pstr "github", c ≠ '/' by decide)]
    rw [splitOnChar_append (fun c hc => (hu' c hc).1)]
    rw [splitOnChar_append (fun c hc => (hr' c hc).1)]
    rw [splitOnChar_append (show ∀ c ∈ pstr "blob", c ≠ '/' by decide)]
    rw [splitOnChar_append (fun c hc => (hb' c hc).1)]
  simp only [nbviewer_rewrite, hpp, hsegs, List.get?]
  rw [if_neg (show ¬((['g', 'i', 't', 'h', 'u', 'b'] : PyStr) = pstr "gist") by decide)]
  rw [if_pos (show (['g', 'i', 't', 'h', 'u', 'b'] : PyStr) = pstr "github" by decide)]
  simp only [List.drop_succ_cons, List.drop_zero, List.take_succ_cons, List.take_zero]
  rw [joinChar_cons (show ([r] : List PyStr) ≠ [] by simp),
      show joinChar '/' [r] = r from rfl,
      joinChar_cons (splitOnChar_ne_nil '/' p),
      joinChar_splitOnChar]
  simp [List.append_assoc]

theorem C2_witness :
    nbviewer_rewrite
        (pstr "http://nbviewer.ipython.org/github/parente/contentmanagement/blob/master/notebook.ipynb") =
      Except.ok
        (pstr "https://raw.githubusercontent.com/parente/contentmanagement/master/notebook.ipynb") :=
  C2_nbviewer_github_normalization (pstr "parente") (pstr "contentmanagement")
    (pstr "master") (pstr "notebook.ipynb") (by decide) (by decide) (by decide)
    (by decide) (by decide) (by decide) (by decide) (by decide)

/-- C2 (counterexample to the claim as stated): a `;params` suffix on
the final path segment is stripped by `urlparse.urlparse` before the
path is split, so the rewrite of `.../blob/b/f;v` yields `.../b/f`,
not the claimed `.../b/f;v`. -/
theorem C2_counterexample :
    nbviewer_rewrite (pstr "http://nbviewer.ipython.org/github/u/r/blob/b/f;v") =
      Except.ok (pstr "https://raw.githubusercontent.com/u/r/b/f") ∧
    pstr "https://raw.githubusercontent.com/u/r/b/f" ≠
      pstr "https://raw.githubusercontent.com/u/r/b/f;v" :=
  ⟨rfl, by decide⟩

/-- C9 (amended): for every direct Gist URL
`https://gist.github.com/<user>/<id>` (user and id free of `/`, `?`,
`#` and of the parameter delimiter `;`), the GitHub normalizer yields
`https://gist.githubusercontent.com/<user>/<id>/raw`; and every URL
that `urlparse.urlparse` parses successfully whose host is neither
`gist.github.com` nor `github.com`, or whose parsed path splits into
two or fewer segments, fails with an HTTPError of status 400.  Not
covered, because false of the code: a netloc with an unmatched
bracket makes `urlparse` raise `ValueError("Invalid IPv6 URL")`
instead of the 400 error, and a `;params` suffix on the id is
stripped before the rewrite (see the counterexample). -/
theorem C9_gist_direct_normalization (u i : PyStr)
    (hu : segOk u = true) (hi : segOk i = true)
    (hu2 : hasChar ';' u = false) (hi2 : hasChar ';' i = false) :
    github_rewrite (pstr "https://gist.github.com/" ++ (u ++ ('/' :: i))) =
      Except.ok (pstr "https://gist.githubusercontent.com/" ++
        (u ++ ('/' :: (i ++ pstr "/raw")))) ∧
    (∀ url : PyStr, ∀ parts : ParseResult, urlparse url = Except.ok parts →
      ((parts.netloc ≠ pstr "gist.github.com" ∧
        parts.netloc ≠ pstr "github.com") ∨
        (splitOnChar '/' parts.path).length ≤ 2) →
      github_rewrite url =
        Except.error (PyErr.httpError 400 (pstr "Unknown github URL type " ++ url))) := by
  constructor
  · have hu' := segOk_mem hu
    have hi' := segOk_mem hi
    have htail : pathOk (u ++ ('/' :: i)) = true := by
      have h1 := pathOk_of_segOk hu
      have h2 := pathOk_of_segOk hi
      simp only [pathOk] at h1 h2 ⊢
      simp [List.all_append, List.all_cons, h1, h2,
        (show pathChar '/' = true by decide)]
    have hurl : urlsplit (pstr "https://gist.github.com/" ++ (u ++ ('/' :: i))) =
        Except.ok ⟨pstr "https", pstr "gist.github.com", '/' :: (u ++ ('/' :: i)), [], []⟩ := by
      rw [show (pstr "https://gist.github.com/" ++ (u ++ ('/' :: i))) =
          pstr "https" ++ ':' :: '/' :: '/' :: (pstr "gist.github.com" ++
            '/' :: (u ++ ('/' :: i))) from rfl]
      rw [urlsplit_https]
      exact urlsplitRest_parts _ _ _ (by decide) htail (by decide)
    have hsemi : hasChar ';' ('/' :: (u ++ ('/' :: i))) = false := by
      refine hasChar_cons_eq_false (by decide) ?_
      refine hasChar_append_eq_false hu2 ?_
      exact hasChar_cons_eq_false (by decide) hi2
    have hpp : urlparse (pstr "https://gist.github.com/" ++ (u ++ ('/' :: i))) =
        Except.ok ⟨pstr "https", pstr "gist.github.com",
          '/' :: (u ++ ('/' :: i)), [], [], []⟩ :=
      urlparse_no_params hurl hsemi
    have hsegs : splitOnChar '/' ('/' :: (u ++ ('/' :: i))) = [[], u, i] := by
      rw [show ('/' :: (u ++ ('/' :: i))) = ([] : PyStr) ++ '/' :: (u ++ '/' :: i) from rfl]
      rw [splitOnChar_append (show ∀ c ∈ ([] : PyStr), c ≠ '/' by simp)]
      rw [splitOnChar_append (fun c hc => (hu' c hc).1)]
      rw [splitOnChar_of_no_sep (fun c hc => (hi' c hc).1)]
    simp only [github_rewrite, hpp, hsegs]
    rw [if_pos (show ([[], u, i] : List PyStr).length > 2 by simp)]
    rw [if_pos trivial]
    rw [show (([[], u, i] : List PyStr).drop 1).take 2 = [u, i] from rfl]
    rw [joinChar_cons (show ([i] : List PyStr) ≠ [] by simp),
        show joinChar '/' [i] = i from rfl]
    simp [List.append_assoc]
  · intro url parts hpar hcond
    simp only [github_rewrite, hpar]
    rcases hcond with ⟨h1, h2⟩ | h3
    · by_cases hlen : (splitOnChar '/' parts.path).length > 2
      · rw [if_pos hlen, if_neg h1, if_neg h2]
      · rw [if_neg hlen]
    · rw [if_neg (by omega)]

theorem C9_witness :
    github_rewrite (pstr "https://gist.github.com/parente/12345") =
      Except.ok (pstr "https://gist.githubusercontent.com/parente/12345/raw") :=
  (C9_gist_direct_normalization (pstr "parente") (pstr "12345")
    (by decide) (by decide) (by decide) (by decide)).1

/-- C9 (counterexample to the claim as stated): a `;params` suffix on
the id is stripped by `urlparse.urlparse`, so
`https://gist.github.com/u/1;x` normalizes to `.../u/1/raw`, not the
claimed `.../u/1;x/raw`; and for the host `github[com` — neither
`gist.github.com` nor `github.com`, so the claim demands a 400 error —
`urlparse` instead raises `ValueError("Invalid IPv6 URL")` because of
the unmatched bracket. -/
theorem C9_counterexample :
    github_rewrite (pstr "https://gist.github.com/u/1;x") =
      Except.ok (pstr "https://gist.githubusercontent.com/u/1/raw") ∧
    pstr "https://gist.githubusercontent.com/u/1/raw" ≠
      pstr "https://gist.githubusercontent.com/u/1;x/raw" ∧
    github_rewrite (pstr "https://github[com/a/b/c") =
      Except.error (PyErr.valueError (pstr "Invalid IPv6 URL")) :=
  ⟨rfl, by decide, rfl⟩

/-- C8 (amended): the GitHub normalizer never raises an out-of-bounds
indexing fault for any URL, and every error it raises is either the
`Unknown github URL type` HTTPError with status 400 or `urlparse`'s
`ValueError("Invalid IPv6 URL")` for a netloc with an unmatched
bracket; the nbviewer normalizer never raises an out-of-bounds fault
for any URL that parses successfully to a path splitting into at
least two segments.  Not covered, because false of the code: a URL
matching the nbviewer dispatch pattern whose parsed path is empty
(reachable through the pattern's unescaped dots) makes `path_segs[1]`
raise IndexError, and missing segments under a recognized kind are
not rejected with a 400 error (see the counterexample). -/
theorem C8_segment_access_safety (url v : PyStr) (parts : ParseResult)
    (hpar : urlparse url = Except.ok parts)
    (h : 2 ≤ (splitOnChar '/' parts.path).length) :
    nbviewer_rewrite url ≠ Except.error PyErr.indexError ∧
    github_rewrite v ≠ Except.error PyErr.indexError ∧
    (∀ e, github_rewrite v = Except.error e →
      e = PyErr.httpError 400 (pstr "Unknown github URL type " ++ v) ∨
      e = PyErr.valueError (pstr "Invalid IPv6 URL")) := by
  refine ⟨?_, ?_, ?_⟩
  · simp only [nbviewer_rewrite, hpar]
    cases hg : (splitOnChar '/' parts.path).get? 1 with
    | none =>
      rw [List.get?_eq_none] at hg
      omega
    | some kind =>
      by_cases h1 : kind = pstr "gist"
      · simp [h1]
      · by_cases h2 : kind = pstr "github"
        · simp [h1, h2, show ¬(pstr "github" = pstr "gist") by decide]
        · by_cases h3 : kind = pstr "url"
          · simp [h1, h2, h3, show ¬(pstr "url" = pstr "gist") by decide,
              show ¬(pstr "url" = pstr "github") by decide]
          · simp [h1, h2, h3]
  · cases hpv : urlparse v with
    | error e =>
      have he := urlparse_error_eq hpv
      simp [github_rewrite, hpv, he]
    | ok pv =>
      simp only [github_rewrite, hpv]
      by_cases h1 : (splitOnChar '/' pv.path).length > 2
      · by_cases h2 : pv.netloc = pstr "gist.github.com"
        · simp [h1, h2]
        · by_cases h3 : pv.netloc = pstr "github.com"
          · simp [h1, h2, h3,
              show ¬(pstr "github.com" = pstr "gist.github.com") by decide]
          · simp [h1, h2, h3]
      · simp [h1]
  · intro e he
    cases hpv : urlparse v with
    | error e2 =>
      simp only [github_rewrite, hpv] at he
      injection he with h4
      right
      rw [← h4]
      exact urlparse_error_eq hpv
    | ok pv =>
      simp only [github_rewrite, hpv] at he
      by_cases h1 : (splitOnChar '/' pv.path).length > 2
      · rw [if_pos h1] at he
        by_cases h2 : pv.netloc = pstr "gist.github.com"
        · rw [if_pos h2] at he
          cases he
        · rw [if_neg h2] at he
          by_cases h3 : pv.netloc = pstr "github.com"
          · rw [if_pos h3] at he
            cases he
          · rw [if_neg h3] at he
            injection he with h4
            exact Or.inl h4.symm
      · rw [if_neg h1] at he
        injection he with h4
        exact Or.inl h4.symm

theorem C8_witness :
    nbviewer_rewrite (pstr "http://nbviewer.ipython.org/gist/u/1") ≠
      Except.error PyErr.indexError ∧
    github_rewrite (pstr "https://gist.github.com/u/1") ≠
      Except.error PyErr.indexError := by
  have h := C8_segment_access_safety (pstr "http://nbviewer.ipython.org/gist/u/1")
    (pstr "https://gist.github.com/u/1")
    ⟨pstr "http", pstr "nbviewer.ipython.org", pstr "/gist/u/1", [], [], []⟩
    rfl (by decide)
  exact ⟨h.1, h.2.1⟩

/-- C8 (counterexample to the claim as stated): the URL
`http://nbviewer.ipython?org/x` matches the nbviewer dispatch pattern
(its unescaped dots match `?`), but `urlparse` gives it an empty path,
so the normalizer raises IndexError instead of a 400-class error; and
the malformed URL `http://nbviewer.ipython.org/github` (missing every
expected segment after the kind) is not rejected at all — it produces
the degenerate URL `https://raw.githubusercontent.com//`. -/
theorem C8_counterexample :
    rxMatch nbviewer_pattern (pstr "http://nbviewer.ipython?org/x") = true ∧
    nbviewer_rewrite (pstr "http://nbviewer.ipython?org/x") =
      Except.error PyErr.indexError ∧
    nbviewer_rewrite (pstr "http://nbviewer.ipython.org/github") =
      Except.ok (pstr "https://raw.githubusercontent.com//") :=
  ⟨rfl, rfl, rfl⟩

/-- C10: the normalizers rebuild the output URL from the parsed path
(and, for the GitHub normalizer, the host) only: for every well-formed
http(s) URL, appending a query string, a fragment, or both, never
changes the nbviewer normalizer's result, and never changes which
successful URL the GitHub normalizer produces — the query string and
fragment are silently dropped. -/
theorem C10_query_fragment_dropped (sch host tail q f : PyStr)
    (hs : sch = pstr "http" ∨ sch = pstr "https")
    (hhost : segOk host = true) (htail : pathOk tail = true)
    (hq : queryOk q = true) :
    (nbviewer_rewrite
        (sch ++ ':' :: '/' :: '/' :: (host ++ '/' :: (tail ++ '?' :: (q ++ '#' :: f)))) =
      nbviewer_rewrite (sch ++ ':' :: '/' :: '/' :: (host ++ '/' :: tail))) ∧
    (nbviewer_rewrite (sch ++ ':' :: '/' :: '/' :: (host ++ '/' :: (tail ++ '?' :: q))) =
      nbviewer_rewrite (sch ++ ':' :: '/' :: '/' :: (host ++ '/' :: tail))) ∧
    (nbviewer_rewrite (sch ++ ':' :: '/' :: '/' :: (host ++ '/' :: (tail ++ '#' :: f))) =
      nbviewer_rewrite (sch ++ ':' :: '/' :: '/' :: (host ++ '/' :: tail))) ∧
    (∀ out, github_rewrite
        (sch ++ ':' :: '/' :: '/' :: (host ++ '/' :: (tail ++ '?' :: (q ++ '#' :: f)))) =
          Except.ok out ↔
      github_rewrite (sch ++ ':' :: '/' :: '/' :: (host ++ '/' :: tail)) =
        Except.ok out) ∧
    (∀ out, github_rewrite
        (sch ++ ':' :: '/' :: '/' :: (host ++ '/' :: (tail ++ '?' :: q))) =
          Except.ok out ↔
      github_rewrite (sch ++ ':' :: '/' :: '/' :: (host ++ '/' :: tail)) =
        Except.ok out) ∧
    (∀ out, github_rewrite
        (sch ++ ':' :: '/' :: '/' :: (host ++ '/' :: (tail ++ '#' :: f))) =
          Except.ok out ↔
      github_rewrite (sch ++ ':' :: '/' :: '/' :: (host ++ '/' :: tail)) =
        Except.ok out) := by
  have hsplit : ∀ rest : PyStr,
      urlsplit (sch ++ ':' :: '/' :: '/' :: rest) = urlsplitRest sch ('/' :: '/' :: rest) := by
    intro rest
    rcases hs with h | h <;> subst h
    · exact urlsplit_http ('/' :: '/' :: rest)
    · exact urlsplit_https rest
  by_cases hbr : badNetlocBrackets host = true
  · have hune : ∀ x : PyStr, urlparse (sch ++ ':' :: '/' :: '/' :: (host ++ '/' :: x)) =
        Except.error (PyErr.valueError (pstr "Invalid IPv6 URL")) := by
      intro x
      apply urlparse_eq_error
      rw [hsplit]
      have hn : netlocPhase ('/' :: '/' :: (host ++ '/' :: x)) = (host, '/' :: x) := by
        rw [netlocPhase_slashes, splitNetloc_append (segOk_mem hhost) (Or.inl rfl)]
      simp [urlsplitRest, hn, hbr]
    refine ⟨?_, ?_, ?_, ?_, ?_, ?_⟩
    · simp [nbviewer_rewrite, hune]
    · simp [nbviewer_rewrite, hune]
    · simp [nbviewer_rewrite, hune]
    · intro out
      simp [github_rewrite, hune]
    · intro out
      simp [github_rewrite, hune]
    · intro out
      simp [github_rewrite, hune]
  · rw [Bool.not_eq_true] at hbr
    have hbase : urlsplit (sch ++ ':' :: '/' :: '/' :: (host ++ '/' :: tail)) =
        Except.ok ⟨sch, host, '/' :: tail, [], []⟩ := by
      rw [hsplit]
      exact urlsplitRest_parts _ _ _ hhost htail hbr
    have hqf : urlsplit (sch ++ ':' :: '/' :: '/' ::
        (host ++ '/' :: (tail ++ '?' :: (q ++ '#' :: f)))) =
        Except.ok ⟨sch, host, '/' :: tail, q, f⟩ := by
      rw [hsplit]
      exact urlsplitRest_parts_qf _ _ _ _ _ hhost htail hq hbr
    have hqo : urlsplit (sch ++ ':' :: '/' :: '/' :: (host ++ '/' :: (tail ++ '?' :: q))) =
        Except.ok ⟨sch, host, '/' :: tail, q, []⟩ := by
      rw [hsplit]
      exact urlsplitRest_parts_q _ _ _ _ hhost htail hq hbr
    have hfo : urlsplit (sch ++ ':' :: '/' :: '/' :: (host ++ '/' :: (tail ++ '#' :: f))) =
        Except.ok ⟨sch, host, '/' :: tail, [], f⟩ := by
      rw [hsplit]
      exact urlsplitRest_parts_f _ _ _ _ hhost htail hbr
    have hv_qf : parseView (urlparse (sch ++ ':' :: '/' :: '/' ::
        (host ++ '/' :: (tail ++ '?' :: (q ++ '#' :: f))))) =
        parseView (urlparse (sch ++ ':' :: '/' :: '/' :: (host ++ '/' :: tail))) := by
      rw [parseView_of_urlsplit hqf, parseView_of_urlsplit hbase]
      have hc := @urlparseParams_proj_congr ⟨sch, host, '/' :: tail, q, f⟩
        ⟨sch, host, '/' :: tail, [], []⟩ rfl rfl rfl
      rw [hc.1, hc.2]
    have hv_qo : parseView (urlparse (sch ++ ':' :: '/' :: '/' ::
        (host ++ '/' :: (tail ++ '?' :: q)))) =
        parseView (urlparse (sch ++ ':' :: '/' :: '/' :: (host ++ '/' :: tail))) := by
      rw [parseView_of_urlsplit hqo, parseView_of_urlsplit hbase]
      have hc := @urlparseParams_proj_congr ⟨sch, host, '/' :: tail, q, []⟩
        ⟨sch, host, '/' :: tail, [], []⟩ rfl rfl rfl
      rw [hc.1, hc.2]
    have hv_fo : parseView (urlparse (sch ++ ':' :: '/' :: '/' ::
        (host ++ '/' :: (tail ++ '#' :: f)))) =
        parseView (urlparse (sch ++ ':' :: '/' :: '/' :: (host ++ '/' :: tail))) := by
      rw [parseView_of_urlsplit hfo, parseView_of_urlsplit hbase]
      have hc := @urlparseParams_proj_congr ⟨sch, host, '/' :: tail, [], f⟩
        ⟨sch, host, '/' :: tail, [], []⟩ rfl rfl rfl
      rw [hc.1, hc.2]
    refine ⟨?_, ?_, ?_, ?_, ?_, ?_⟩
    · exact nbviewer_rewrite_congr hv_qf
    · exact nbviewer_rewrite_congr hv_qo
    · exact nbviewer_rewrite_congr hv_fo
    · intro out
      exact github_rewrite_ok_congr hv_qf out
    · intro out
      exact github_rewrite_ok_congr hv_qo out
    · intro out
      exact github_rewrite_ok_congr hv_fo out

theorem C10_witness :
    nbviewer_rewrite (pstr "http://nbviewer.ipython.org/gist/u/1?a=b#frag") =
      nbviewer_rewrite (pstr "http://nbviewer.ipython.org/gist/u/1") ∧
    (github_rewrite (pstr "https://gist.github.com/u/1?a=b#frag") =
        Except.ok (pstr "https://gist.githubusercontent.com/u/1/raw") ↔
      github_rewrite (pstr "https://gist.github.com/u/1") =
        Except.ok (pstr "https://gist.githubusercontent.com/u/1/raw")) := by
  have h1 := C10_query_fragment_dropped (pstr "http") (pstr "nbviewer.ipython.org")
    (pstr "gist/u/1") (pstr "a=b") (pstr "frag") (Or.inl rfl)
    (by decide) (by decide) (by decide)
  have h2 := C10_query_fragment_dropped (pstr "https") (pstr "gist.github.com")
    (pstr "u/1") (pstr "a=b") (pstr "frag") (Or.inr rfl)
    (by decide) (by decide) (by decide)
  exact ⟨h1.1, h2.2.2.2.1 (pstr "https://gist.githubusercontent.com/u/1/raw")⟩
